import Mathlib

/-!
Verification of the transform-and-rasterization pipeline of `src/main.rs`
(a software 3D renderer).  Floating-point values are modelled as exact
rationals; the float-cast corner cases (NaN, infinities, saturation of
`as i32`) are modelled separately by the extended value type `FV` below.
The modules `triangle.rs`, `camera.rs`, `draw.rs` and `mesh.rs` are not in
the sources; where a claim depends on them the definitions are modelled
from the specification and say so in their doc comments.
-/

namespace PixelRendering

/-- A 3D vector of exact rationals, modelling glam's `Vec3` (f32 components)
as ideal arithmetic. -/
structure Vec3 where
  x : ℚ
  y : ℚ
  z : ℚ
deriving DecidableEq

def Vec3.add (u v : Vec3) : Vec3 := ⟨u.x + v.x, u.y + v.y, u.z + v.z⟩

def Vec3.sub (u v : Vec3) : Vec3 := ⟨u.x - v.x, u.y - v.y, u.z - v.z⟩

def Vec3.smul (k : ℚ) (v : Vec3) : Vec3 := ⟨k * v.x, k * v.y, k * v.z⟩

def Vec3.dot (u v : Vec3) : ℚ := u.x * v.x + u.y * v.y + u.z * v.z

def Vec3.cross (u v : Vec3) : Vec3 :=
  ⟨u.y * v.z - u.z * v.y, u.z * v.x - u.x * v.z, u.x * v.y - u.y * v.x⟩

/-- A triangle of three 3D points, as in `triangle.rs` / the spec §3. -/
structure Triangle where
  a : Vec3
  b : Vec3
  c : Vec3
deriving DecidableEq

/-- Modelled from the spec: `triangle.rs` is not under `src/`; the spec §3
defines `centroid = (a+b+c)/3`. -/
def Triangle.centroid (t : Triangle) : Vec3 :=
  Vec3.smul (1 / 3) (Vec3.add (Vec3.add t.a t.b) t.c)

/-- The unnormalized normal direction `(b - a) × (c - a)`. -/
def Triangle.normalDir (t : Triangle) : Vec3 :=
  Vec3.cross (Vec3.sub t.b t.a) (Vec3.sub t.c t.a)

/-- Modelled from the spec: `triangle.rs` is not under `src/`; the spec §3
defines `surface_normal = normalize((b-a) × (c-a))`.  Normalization scales
the cross product by the positive factor `1/‖(b-a) × (c-a)‖`, which is
irrational in general; it is abstracted here as a scale parameter `k`
(instantiated with the true factor, which is positive whenever the triangle
is nondegenerate). -/
def Triangle.surface_normal (k : ℚ) (t : Triangle) : Vec3 :=
  Vec3.smul k t.normalDir

/-- A homogeneous 4D vector (glam `Vec4`). -/
structure Vec4 where
  x : ℚ
  y : ℚ
  z : ℚ
  w : ℚ
deriving DecidableEq

def Vec4.dot (u v : Vec4) : ℚ := u.x * v.x + u.y * v.y + u.z * v.z + u.w * v.w

/-- A 4×4 matrix given by its rows (the camera's view-projection matrix is
opaque here: `camera.rs` is not under `src/`, so the pipeline is stated for
an arbitrary matrix). -/
structure Mat4 where
  r0 : Vec4
  r1 : Vec4
  r2 : Vec4
  r3 : Vec4
deriving DecidableEq

def Mat4.mulVec (m : Mat4) (v : Vec4) : Vec4 :=
  ⟨m.r0.dot v, m.r1.dot v, m.r2.dot v, m.r3.dot v⟩

def idMat4 : Mat4 :=
  ⟨⟨1, 0, 0, 0⟩, ⟨0, 1, 0, 0⟩, ⟨0, 0, 1, 0⟩, ⟨0, 0, 0, 1⟩⟩

/-- The per-vertex transform closure of `render` (`main.rs` lines 78–89):
extend to homogeneous form with `w = 1`, multiply by the matrix, divide the
whole vector by its `w` (no guard against `w = 0`), drop `w`, negate `y`,
add `1` to every component, and multiply componentwise by
`scale_factor = 0.5 * size` where `size = (width, height, 0)`. -/
def transform (m : Mat4) (size : ℤ × ℤ) (p : Vec3) : Vec3 :=
  let homogeneous : Vec4 := ⟨p.x, p.y, p.z, 1⟩
  let projected := m.mulVec homogeneous
  let pd : Vec4 := ⟨projected.x / projected.w, projected.y / projected.w,
    projected.z / projected.w, projected.w / projected.w⟩
  let flipped : Vec3 := ⟨pd.x * 1, pd.y * (-1), pd.z * 1⟩
  let centered : Vec3 := ⟨flipped.x + 1, flipped.y + 1, flipped.z + 1⟩
  ⟨centered.x * ((size.1 : ℚ) / 2), centered.y * ((size.2 : ℚ) / 2),
    centered.z * 0⟩

/-- The `transform_triangle` closure of `main.rs`: transform all three vertices. -/
def transform_triangle (m : Mat4) (size : ℤ × ℤ) (t : Triangle) : Triangle :=
  ⟨transform m size t.a, transform m size t.b, transform m size t.c⟩

/-- Truncation toward zero: the value of Rust's `f32 as i32` cast on a
finite in-range float. -/
def truncQ (q : ℚ) : ℤ := if 0 ≤ q then ⌊q⌋ else ⌈q⌉

/-- Rounding half away from zero: Rust's `f32::round`. -/
def roundQ (q : ℚ) : ℤ := if 0 ≤ q then ⌊q + 1 / 2⌋ else ⌈q - 1 / 2⌉

/-- Integer 3-vector (glam `IVec3`). -/
structure IVec3 where
  x : ℤ
  y : ℤ
  z : ℤ
deriving DecidableEq

/-- glam's `Vec3::as_ivec3`: componentwise cast, truncating toward zero. -/
def Vec3.as_ivec3 (v : Vec3) : IVec3 := ⟨truncQ v.x, truncQ v.y, truncQ v.z⟩

/-- Rounding then casting, `.round().as_ivec3()`, on a `Vec3`. -/
def Vec3.roundI (v : Vec3) : IVec3 := ⟨roundQ v.x, roundQ v.y, roundQ v.z⟩

/-- glam's `IVec3::truncate`: drop the `z` component. -/
def IVec3.truncate (p : IVec3) : ℤ × ℤ := (p.x, p.y)

/-- The `is_on_screen` closure of `render` (`main.rs` lines 100–102). -/
def is_on_screen (size : ℤ × ℤ) (p : IVec3) : Bool :=
  decide (0 < p.x) && decide (0 < p.y) && decide (p.x < size.1) &&
    decide (p.y < size.2)

/-- The `is_on_screen_triangle` closure (`main.rs` lines 104–106): all three
vertices pass `is_on_screen` after the truncating `as_ivec3` cast. -/
def is_on_screen_triangle (size : ℤ × ℤ) (t : Triangle) : Bool :=
  [t.a, t.b, t.c].all fun v => is_on_screen size v.as_ivec3

/-- The `is_visible` closure (`main.rs` lines 108–112): backface culling by
the sign of `dot(surface_normal, camera.position - centroid)`. -/
def is_visible (k : ℚ) (campos : Vec3) (t : Triangle) : Bool :=
  decide (0 ≤ Vec3.dot (t.surface_normal k) (Vec3.sub campos t.centroid))

/-- The mesh triangles surviving the backface cull, in mesh order
(`self.mesh.iter().filter(is_visible)`). -/
def visibleTris (k : ℚ) (campos : Vec3) (mesh : List Triangle) : List Triangle :=
  mesh.filter (is_visible k campos)

/-- The culled triangles after projection (`.map(transform_triangle)`). -/
def projectedTris (k : ℚ) (campos : Vec3) (m : Mat4) (size : ℤ × ℤ)
    (mesh : List Triangle) : List Triangle :=
  (visibleTris k campos mesh).map (transform_triangle m size)

/-- The projected triangles surviving the on-screen filter
(`.filter(is_on_screen_triangle)`); these are exactly the triangles handed
to the triangle rasterizer primitive. -/
def screenTris (k : ℚ) (campos : Vec3) (m : Mat4) (size : ℤ × ℤ)
    (mesh : List Triangle) : List Triangle :=
  (projectedTris k campos m size mesh).filter (is_on_screen_triangle size)

/-- An RGBA color (`[u8; 4]` in the code). -/
structure Color where
  r : ℕ
  g : ℕ
  b : ℕ
  a : ℕ
deriving DecidableEq

/-- One invocation of a rasterizer primitive.  `draw.rs` is not under
`src/`, so drawing is modelled at the level of the commands `render` issues
to the primitives `triangle`, `line` and `pixel`, in order. -/
inductive DrawCmd where
  | tri (a b c : ℤ × ℤ) (color : Color)
  | seg (p q : ℤ × ℤ) (color : Color)
  | pix (p : ℤ × ℤ) (color : Color)
deriving DecidableEq

/-- The `triangle(...)` call in the render loop (`main.rs` lines 137–143):
the vertices are rounded, cast to integers and truncated to 2D. -/
def triCmd (color : Color) (t : Triangle) : DrawCmd :=
  DrawCmd.tri t.a.roundI.truncate t.b.roundI.truncate t.c.roundI.truncate color

/-- The `draw_axis` closure (`main.rs` lines 114–126): transform the origin
and the axis endpoint, round both, and issue a `line` command only if both
rounded endpoints pass `is_on_screen`. -/
def draw_axis (m : Mat4) (size : ℤ × ℤ) (axis : Vec3) (color : Color) :
    List DrawCmd :=
  let origin := (transform m size ⟨0, 0, 0⟩).roundI
  let transformed := (transform m size axis).roundI
  if is_on_screen size origin && is_on_screen size transformed then
    [DrawCmd.seg origin.truncate transformed.truncate color]
  else []

/-- Rust `i32` division (truncation toward zero), used by `size / 2`. -/
def i32div (a b : ℤ) : ℤ := Int.tdiv a b

/-- The sequence of rasterizer-primitive invocations of one `render` call
(`main.rs` lines 71–158), in order: one `triangle` per surviving mesh
triangle (mesh order), then the three axis lines (X red, Y green, Z blue),
then the center marker pixel.  `rgb` is the frame's time-animated color
(a float-sine computation, abstracted as a parameter); the matrix `m` is
`camera.matrix()` (opaque) and `campos` is `camera.position`. -/
def renderCmds (k : ℚ) (campos : Vec3) (m : Mat4) (size : ℤ × ℤ)
    (rgb : ℕ × ℕ × ℕ) (mesh : List Triangle) : List DrawCmd :=
  let rgba : Color := ⟨rgb.1, rgb.2.1, rgb.2.2, 255⟩
  (screenTris k campos m size mesh).map (triCmd rgba)
    ++ draw_axis m size ⟨1, 0, 0⟩ ⟨255, 0, 0, 255⟩
    ++ draw_axis m size ⟨0, 1, 0⟩ ⟨0, 255, 0, 255⟩
    ++ draw_axis m size ⟨0, 0, 1⟩ ⟨0, 0, 255, 255⟩
    ++ [DrawCmd.pix (i32div size.1 2, i32div size.2 2) ⟨255, 255, 255, 255⟩]

/-- The camera state (`camera.rs` is not under `src/`; fields from the spec
§3: position, yaw/pitch orientation pair, aspect ratio; the fixed
field-of-view constant carries no state). `aspect` models the
`aspect_ratio` field. -/
structure Camera where
  position : Vec3
  rotation : ℚ × ℚ
  aspect : ℚ
deriving DecidableEq

/-- Modelled from the spec: `Camera::new(position, rotation, aspect_ratio)`
as called in `main` (`main.rs` line 220); the constructor stores its
arguments. -/
def Camera.new (position : Vec3) (rotation : ℚ × ℚ) (aspect : ℚ) : Camera :=
  ⟨position, rotation, aspect⟩

/-- Pitch clamp from the spec §4.2: clamped to ±89°, never wrapping. -/
def clampPitch (p : ℚ) : ℚ := max (-89) (min 89 p)

/-- Yaw wrap from the spec §4.2: wraps freely mod 360°. -/
def wrapYaw (y : ℚ) : ℚ := y - 360 * ⌊y / 360⌋

/-- Modelled from the spec: `camera.rs` is not under `src/`; §4.2 says
`update_rotation(delta)` adds a fixed sensitivity-scaled amount to pitch
and yaw, clamping pitch and wrapping yaw.  The first component of the
rotation pair is the pitch, the second the yaw. -/
def Camera.update_rotation (c : Camera) (sens : ℚ) (delta : ℚ × ℚ) : Camera :=
  { c with
    rotation := (clampPitch (c.rotation.1 + sens * delta.1),
      wrapYaw (c.rotation.2 + sens * delta.2)) }

/-- Modelled from the spec: `camera.rs` is not under `src/`; §4.2 says
`update(pressed_keys)` adds a movement vector (computed from the held keys,
the yaw and a fixed speed — abstracted here as the argument `mv`) to the
position, touching no other field. -/
def Camera.update (c : Camera) (mv : Vec3) : Camera :=
  { c with position := Vec3.add c.position mv }

/-- The events `handle` dispatches on (`main.rs` lines 161–184): window
resize, raw mouse motion, and everything else (ignored). -/
inductive Ev where
  | resized (w h : ℕ)
  | mouseMotion (dx dy : ℚ)
  | other
deriving DecidableEq

/-- The argument `main.rs` line 176 builds for `camera.update_rotation` on
a mouse-motion event: `vec2(-*dy as f32, *dx as f32)`. -/
def mouseRotationArg (dx dy : ℚ) : ℚ × ℚ := (-dy, dx)

/-- The effect of `Application::handle` (`main.rs` lines 161–184) on the
camera: a resize sets `aspect_ratio` to `width as f32 / height as f32`;
a mouse-motion event calls `update_rotation` with `vec2(-dy, dx)`; every
other event leaves the camera unchanged.  (The buffer resizes a resize
also triggers are host-side and carry no camera state.) -/
def handleEvent (sens : ℚ) (c : Camera) : Ev → Camera
  | Ev.resized w h => { c with aspect := (w : ℚ) / (h : ℚ) }
  | Ev.mouseMotion dx dy => c.update_rotation sens (mouseRotationArg dx dy)
  | Ev.other => c

/-- One step of the event/frame loop, as seen by the camera: an event
dispatched to `handle`, an `update` call (with its movement vector), or a
`render` call (which only reads the camera). -/
inductive Step where
  | ev (e : Ev)
  | update (mv : Vec3)
  | render
deriving DecidableEq

def stepCamera (sens : ℚ) (c : Camera) : Step → Camera
  | Step.ev e => handleEvent sens c e
  | Step.update mv => c.update mv
  | Step.render => c

def runCamera (sens : ℚ) (c : Camera) (steps : List Step) : Camera :=
  steps.foldl (stepCamera sens) c

/-- The width/height pair of the last resize event in a step list, if any. -/
def lastResize : List Step → Option (ℕ × ℕ)
  | [] => none
  | s :: rest =>
    match lastResize rest with
    | some wh => some wh
    | none =>
      match s with
      | Step.ev (Ev.resized w h) => some (w, h)
      | _ => none

/-- The camera as constructed in `main` (`main.rs` line 220):
`Camera::new(Vec3::ZERO, Vec2::ZERO, 0.0)`. -/
def initialCamera : Camera := Camera.new ⟨0, 0, 0⟩ (0, 0) 0

/-- The application state (`main.rs` lines 43–50); the window/pixels/time
handles carry no model state beyond the frame buffer contents, modelled as
an abstract byte list. -/
structure Application where
  mesh : List Triangle
  camera : Camera
  frame : List ℕ

/-- The `update` method (`main.rs` lines 53–67): its only state effect is
`self.camera.update(&keys)`; `camUpd` abstracts `Camera::update` applied
to the pressed keys. -/
def app_update (camUpd : Camera → Camera) (s : Application) : Application :=
  { s with camera := camUpd s.camera }

/-- The `render` method (`main.rs` lines 70–158): reads the mesh and the
camera and overwrites the frame buffer contents; `drawFn` abstracts the
buffer contents produced by the draw calls. -/
def app_render (drawFn : List Triangle → Camera → List ℕ → List ℕ)
    (s : Application) : Application :=
  { s with frame := drawFn s.mesh s.camera s.frame }

/-- A per-frame entry point: an `update` call or a `render` call. -/
inductive FrameOp where
  | update (camUpd : Camera → Camera)
  | render (drawFn : List Triangle → Camera → List ℕ → List ℕ)

def runFrames (s : Application) : List FrameOp → Application
  | [] => s
  | FrameOp.update u :: rest => runFrames (app_update u s) rest
  | FrameOp.render d :: rest => runFrames (app_render d s) rest

/-- A float value as seen by the `as i32` cast: finite (modelled exactly),
NaN, or an infinity. -/
inductive FV where
  | fin (q : ℚ)
  | nan
  | pinf
  | ninf
deriving DecidableEq

def FV.isFinite : FV → Bool
  | FV.fin _ => true
  | _ => false

def i32max : ℤ := 2147483647

def i32min : ℤ := -2147483648

/-- Rust's `f32 as i32` cast: truncation toward zero, saturating at the
`i32` range; NaN casts to 0, +∞ to `i32::MAX`, -∞ to `i32::MIN`. -/
def castI32 : FV → ℤ
  | FV.nan => 0
  | FV.pinf => i32max
  | FV.ninf => i32min
  | FV.fin q => max i32min (min i32max (truncQ q))

/-- A projected vertex with possibly non-finite coordinates. -/
structure FVec3 where
  x : FV
  y : FV
  z : FV
deriving DecidableEq

structure FTriangle where
  a : FVec3
  b : FVec3
  c : FVec3
deriving DecidableEq

/-- The `is_on_screen` test as it behaves on a possibly non-finite projected vertex:
the same strict bounds test, after the saturating `as_ivec3` cast. -/
def is_on_screenF (size : ℤ × ℤ) (p : FVec3) : Bool :=
  decide (0 < castI32 p.x) && decide (0 < castI32 p.y) &&
    decide (castI32 p.x < size.1) && decide (castI32 p.y < size.2)

/-- The `is_on_screen_triangle` test on possibly non-finite projected vertices. -/
def is_on_screen_triangleF (size : ℤ × ℤ) (t : FTriangle) : Bool :=
  [t.a, t.b, t.c].all (is_on_screenF size)

/-- A projected vertex lies strictly inside the open screen rectangle
`(0,0)–(width,height)`. -/
def insideOpen (size : ℤ × ℤ) (v : Vec3) : Prop :=
  0 < v.x ∧ v.x < (size.1 : ℚ) ∧ 0 < v.y ∧ v.y < (size.2 : ℚ)

/-- The screen position (x, y) computed by the code's `transform`. -/
def screenPos (m : Mat4) (size : ℤ × ℤ) (p : Vec3) : ℚ × ℚ :=
  ((transform m size p).x, (transform m size p).y)

/-- Modelled from the spec: the literal reading of spec §4.3 step 2 —
perspective divide, flip y, remap each coordinate v to [0,1] via (v+1)/2,
then scale by HALF the screen size (half of width on x, half of height
on y).  Kept for comparison against the code's `transform`. -/
def screenPosSpec (m : Mat4) (size : ℤ × ℤ) (p : Vec3) : ℚ × ℚ :=
  let projected := m.mulVec ⟨p.x, p.y, p.z, 1⟩
  let ndcx := projected.x / projected.w
  let ndcy := -(projected.y / projected.w)
  ((ndcx + 1) / 2 * ((size.1 : ℚ) / 2), (ndcy + 1) / 2 * ((size.2 : ℚ) / 2))

/-- The amended reading: perspective divide, flip y, remap each coordinate
v to [0,1] via (v+1)/2, then scale by the FULL screen size (width on x,
height on y) — equivalently, add 1 and multiply by half the screen size. -/
def screenPosAmended (m : Mat4) (size : ℤ × ℤ) (p : Vec3) : ℚ × ℚ :=
  let projected := m.mulVec ⟨p.x, p.y, p.z, 1⟩
  let ndcx := projected.x / projected.w
  let ndcy := -(projected.y / projected.w)
  ((ndcx + 1) / 2 * (size.1 : ℚ), (ndcy + 1) / 2 * (size.2 : ℚ))

/-- A concrete small triangle used as a witness input; it faces the point
`(0,0,1)` and, under the identity matrix at screen size 10×10, projects
strictly on-screen. -/
def sampleTri : Triangle := ⟨⟨0, 0, 0⟩, ⟨1 / 5, 0, 0⟩, ⟨0, 1 / 5, 0⟩⟩

/-- A concrete projected triangle whose vertex coordinates are all 19/2:
the truncated coordinates (9) pass the on-screen test, while the rounded
coordinates equal 10, the screen extent. -/
def sampleEdgeTri : Triangle :=
  ⟨⟨19 / 2, 19 / 2, 0⟩, ⟨19 / 2, 19 / 2, 0⟩, ⟨19 / 2, 19 / 2, 0⟩⟩

/-- A concrete projected triangle with one vertex x-coordinate 1/2 ∈ (0,1):
dropped by the on-screen filter although the coordinate rounds to pixel
column 1, which is on-screen. -/
def sampleDropTri : Triangle := ⟨⟨1 / 2, 5, 0⟩, ⟨5, 5, 0⟩, ⟨6, 6, 0⟩⟩

/-- A concrete projected triangle with a NaN x-coordinate on one vertex. -/
def nanTri : FTriangle :=
  ⟨⟨FV.nan, FV.fin 5, FV.fin 0⟩, ⟨FV.fin 5, FV.fin 5, FV.fin 0⟩,
    ⟨FV.fin 6, FV.fin 6, FV.fin 0⟩⟩

/-! ## Helper lemmas -/

lemma truncQ_pos_bounds (q : ℚ) (n : ℤ) (h1 : 0 < truncQ q) (h2 : truncQ q < n) :
    1 ≤ q ∧ q < (n : ℚ) := by
  unfold truncQ at h1 h2
  by_cases h0 : 0 ≤ q
  · rw [if_pos h0] at h1 h2
    refine ⟨?_, ?_⟩
    · exact_mod_cast Int.le_floor.mp h1
    · exact Int.floor_lt.mp h2
  · rw [if_neg h0] at h1
    have hq : q ≤ 0 := le_of_lt (lt_of_not_ge h0)
    have := Int.ceil_le.mpr (by exact_mod_cast hq : q ≤ ((0 : ℤ) : ℚ))
    omega

lemma roundQ_bounds (q : ℚ) (n : ℤ) (h1 : 1 ≤ q) (h2 : q < (n : ℚ)) :
    1 ≤ roundQ q ∧ roundQ q ≤ n := by
  have h0 : 0 ≤ q := le_trans zero_le_one h1
  unfold roundQ
  rw [if_pos h0]
  refine ⟨?_, ?_⟩
  · exact Int.le_floor.mpr (by push_cast; linarith)
  · have : ⌊q + 1 / 2⌋ < n + 1 := Int.floor_lt.mpr (by push_cast; linarith)
    omega

lemma is_on_screen_inside (size : ℤ × ℤ) (v : Vec3)
    (h : is_on_screen size v.as_ivec3 = true) : insideOpen size v := by
  simp only [is_on_screen, Vec3.as_ivec3, Bool.and_eq_true, decide_eq_true_eq] at h
  obtain ⟨⟨⟨hx0, hy0⟩, hxw⟩, hyh⟩ := h
  obtain ⟨hx1, hx2⟩ := truncQ_pos_bounds v.x size.1 hx0 hxw
  obtain ⟨hy1, hy2⟩ := truncQ_pos_bounds v.y size.2 hy0 hyh
  exact ⟨lt_of_lt_of_le one_pos hx1, hx2, lt_of_lt_of_le one_pos hy1, hy2⟩

lemma filter_map_filter {α β : Type} (p : α → Bool) (f : α → β) (q : β → Bool) :
    ∀ l : List α, ((l.filter p).map f).filter q =
      (l.filter fun x => p x && q (f x)).map f := by
  intro l
  induction l with
  | nil => rfl
  | cons x xs ih =>
    by_cases hp : p x
    · by_cases hq : q (f x) <;> simp [List.filter_cons, hp, hq, ih]
    · simp [List.filter_cons, hp, ih]

/-! ## Claim theorems -/

/-- C1: for every triangle in the mesh, each frame, the triangle proceeds
to projection (and thence is a candidate for rasterization) if and only if
`dot(surface_normal, camera.position - centroid) ≥ 0`; the tie case
`= 0` is kept, not culled; and every rasterized triangle is the projection
of some mesh triangle satisfying the dot-product condition. -/
theorem c1_backface_cull (k : ℚ) (campos : Vec3) (m : Mat4) (size : ℤ × ℤ)
    (mesh : List Triangle) (t : Triangle) :
    (t ∈ visibleTris k campos mesh ↔
      t ∈ mesh ∧ 0 ≤ Vec3.dot (t.surface_normal k) (Vec3.sub campos t.centroid))
    ∧ (Vec3.dot (t.surface_normal k) (Vec3.sub campos t.centroid) = 0 →
        t ∈ mesh → t ∈ visibleTris k campos mesh)
    ∧ (∀ s ∈ screenTris k campos m size mesh, ∃ t0 ∈ mesh,
        0 ≤ Vec3.dot (t0.surface_normal k) (Vec3.sub campos t0.centroid) ∧
          s = transform_triangle m size t0) := by
  refine ⟨?_, ?_, ?_⟩
  · simp [visibleTris, List.mem_filter, is_visible]
  · intro h hm
    simp [visibleTris, List.mem_filter, is_visible, hm, le_of_eq h.symm]
  · intro s hs
    obtain ⟨hp, -⟩ := List.mem_filter.mp hs
    obtain ⟨t0, ht0, rfl⟩ := List.mem_map.mp hp
    obtain ⟨hm, hv⟩ := List.mem_filter.mp ht0
    exact ⟨t0, hm, by simpa [is_visible] using hv, rfl⟩

/-- C1 witness: a concrete triangle facing the camera position `(0,0,1)`
(dot product 1/25 > 0) passes the cull. -/
theorem c1_backface_cull_witness :
    sampleTri ∈ visibleTris 1 ⟨0, 0, 1⟩ [sampleTri] :=
  ((c1_backface_cull 1 ⟨0, 0, 1⟩ idMat4 (10, 10) [sampleTri] sampleTri).1).mpr
    ⟨List.mem_singleton.mpr rfl, by
      simp only [sampleTri, Triangle.surface_normal, Triangle.normalDir,
        Triangle.centroid, Vec3.smul, Vec3.add, Vec3.sub, Vec3.cross, Vec3.dot]
      norm_num⟩

/-- C2: every triangle passed to the triangle rasterizer has all three
projected vertices strictly inside the open screen rectangle
`(0,0)–(width,height)`; contrapositively, a triangle with any vertex
outside that open rectangle is dropped (the pipeline filters whole
triangles and never clips them). -/
theorem c2_onscreen_filter (k : ℚ) (campos : Vec3) (m : Mat4) (size : ℤ × ℤ)
    (mesh : List Triangle) (t : Triangle)
    (ht : t ∈ screenTris k campos m size mesh) :
    insideOpen size t.a ∧ insideOpen size t.b ∧ insideOpen size t.c := by
  obtain ⟨-, hscr⟩ := List.mem_filter.mp ht
  simp only [is_on_screen_triangle, List.all_eq_true, List.mem_cons,
    List.mem_singleton, List.not_mem_nil, or_false, forall_eq_or_imp,
    forall_eq] at hscr
  exact ⟨is_on_screen_inside size t.a hscr.1,
    is_on_screen_inside size t.b hscr.2.1,
    is_on_screen_inside size t.c hscr.2.2⟩

/-- C2 witness: the concrete sample triangle survives the whole pipeline
at screen size 10×10 under the identity matrix, and its projected vertices
are strictly inside the open rectangle. -/
theorem c2_onscreen_filter_witness :
    insideOpen (10, 10) (transform_triangle idMat4 (10, 10) sampleTri).a ∧
      insideOpen (10, 10) (transform_triangle idMat4 (10, 10) sampleTri).b ∧
      insideOpen (10, 10) (transform_triangle idMat4 (10, 10) sampleTri).c :=
  c2_onscreen_filter 1 ⟨0, 0, 1⟩ idMat4 (10, 10) [sampleTri]
    (transform_triangle idMat4 (10, 10) sampleTri)
    (List.mem_filter.mpr
      ⟨List.mem_map.mpr ⟨sampleTri,
        List.mem_filter.mpr ⟨List.mem_singleton.mpr rfl, by
          simp only [is_visible, sampleTri, Triangle.surface_normal,
            Triangle.normalDir, Triangle.centroid, Vec3.smul, Vec3.add,
            Vec3.sub, Vec3.cross, Vec3.dot]
          norm_num⟩, rfl⟩, by
        simp only [is_on_screen_triangle, transform_triangle, transform,
          Mat4.mulVec, Vec4.dot, idMat4, sampleTri, is_on_screen,
          Vec3.as_ivec3, truncQ, List.all_cons, List.all_nil]
        norm_num⟩)

/-- C3 counterexample: at the identity matrix, screen size 4×4 and vertex
`(1,0,0)`, the code computes screen position `(4,2)` while the claimed
formula (remap via `(v+1)/2`, then scale by half the screen size) yields
`(2,1)`. -/
theorem c3_transform_counterexample :
    screenPos idMat4 (4, 4) ⟨1, 0, 0⟩ ≠ screenPosSpec idMat4 (4, 4) ⟨1, 0, 0⟩ := by
  simp only [screenPos, screenPosSpec, transform, Mat4.mulVec, Vec4.dot,
    idMat4, ne_eq, Prod.mk.injEq, not_and]
  norm_num

/-- C3 (amended): the screen position is computed by the perspective
divide, the y flip, the remap `v ↦ (v+1)/2` and a scale by the FULL screen
size (equivalently: add 1, then multiply by half the screen size). -/
theorem c3_transform_amended (m : Mat4) (size : ℤ × ℤ) (p : Vec3) :
    screenPos m size p = screenPosAmended m size p := by
  simp only [screenPos, screenPosAmended, transform, Prod.mk.injEq]
  constructor <;> ring

/-- C4 counterexample: from the zero-rotation startup camera with unit
sensitivity, the handler applied to a mouse-motion event with delta
`(1, 2)` does not equal `update_rotation` applied to `(1, 2)`: the code
builds `vec2(-dy, dx) = (-2, 1)` instead. -/
theorem c4_mouse_delta_counterexample :
    handleEvent 1 initialCamera (Ev.mouseMotion 1 2) ≠
      initialCamera.update_rotation 1 (1, 2) := by
  simp only [handleEvent, mouseRotationArg, Camera.update_rotation,
    initialCamera, Camera.new, clampPitch, wrapYaw, ne_eq, Camera.mk.injEq,
    Prod.mk.injEq, not_and]
  norm_num

/-- C4 (amended): for every mouse-motion device event with delta
`(dx, dy)`, the handler forwards `(-dy, dx)` — the components swapped and
`dy` negated — to `camera.update_rotation`. -/
theorem c4_mouse_delta_amended (sens : ℚ) (c : Camera) (dx dy : ℚ) :
    handleEvent sens c (Ev.mouseMotion dx dy) =
      c.update_rotation sens (mouseRotationArg dx dy) ∧
      mouseRotationArg dx dy = (-dy, dx) :=
  ⟨rfl, rfl⟩

/-- C5: the rasterizer-primitive invocations of one frame are: one
triangle command per mesh triangle surviving the cull and the on-screen
filter, in mesh declaration order (an order-preserving map of a filter of
the mesh sequence), followed by the three reference axis lines, followed
by the center marker pixel. -/
theorem c5_draw_order (k : ℚ) (campos : Vec3) (m : Mat4) (size : ℤ × ℤ)
    (rgb : ℕ × ℕ × ℕ) (mesh : List Triangle) :
    renderCmds k campos m size rgb mesh =
      ((mesh.filter fun t => is_visible k campos t &&
          is_on_screen_triangle size (transform_triangle m size t)).map
        fun t =>
          triCmd ⟨rgb.1, rgb.2.1, rgb.2.2, 255⟩ (transform_triangle m size t))
      ++ draw_axis m size ⟨1, 0, 0⟩ ⟨255, 0, 0, 255⟩
      ++ draw_axis m size ⟨0, 1, 0⟩ ⟨0, 255, 0, 255⟩
      ++ draw_axis m size ⟨0, 0, 1⟩ ⟨0, 0, 255, 255⟩
      ++ [DrawCmd.pix (i32div size.1 2, i32div size.2 2)
            ⟨255, 255, 255, 255⟩] := by
  unfold renderCmds screenTris projectedTris visibleTris
  rw [filter_map_filter]
  simp only [List.map_map]
  rfl

/-- C6: the last primitive invocation of every render call is a pixel
write of the fully-opaque white color (255,255,255,255) at the integer
center `(width/2, height/2)` of the screen. -/
theorem c6_center_marker (k : ℚ) (campos : Vec3) (m : Mat4) (size : ℤ × ℤ)
    (rgb : ℕ × ℕ × ℕ) (mesh : List Triangle) :
    (renderCmds k campos m size rgb mesh).getLast? =
      some (DrawCmd.pix (i32div size.1 2, i32div size.2 2)
        ⟨255, 255, 255, 255⟩) := by
  unfold renderCmds
  rw [List.getLast?_append_of_ne_nil _ (by simp)]
  rfl

/-- C7: `update` and `render` leave the mesh unchanged — after any number
of frames the mesh equals the startup mesh — and each of them is a pure
update of a single field beyond it: `update` writes only the camera,
`render` writes only the frame buffer contents. -/
theorem c7_mesh_immutable :
    (∀ (s : Application) (ops : List FrameOp), (runFrames s ops).mesh = s.mesh)
    ∧ (∀ (u : Camera → Camera) (s : Application),
        app_update u s = { s with camera := (app_update u s).camera })
    ∧ (∀ (d : List Triangle → Camera → List ℕ → List ℕ) (s : Application),
        app_render d s = { s with frame := (app_render d s).frame }) := by
  refine ⟨?_, fun u s => rfl, fun d s => rfl⟩
  intro s ops
  induction ops generalizing s with
  | nil => rfl
  | cons op rest ih =>
    cases op with
    | update u => exact ih (app_update u s)
    | render d => exact ih (app_render d s)

lemma is_on_screenF_nonfinite (size : ℤ × ℤ) (v : FVec3)
    (h1 : size.1 ≤ i32max) (h2 : size.2 ≤ i32max)
    (h : v.x.isFinite = false ∨ v.y.isFinite = false) :
    is_on_screenF size v = false := by
  rcases h with h | h
  · cases hx : v.x with
    | fin q => rw [hx] at h; simp [FV.isFinite] at h
    | nan => simp [is_on_screenF, hx, castI32]
    | pinf =>
      have hlt : ¬ (i32max < size.1) := not_lt.mpr h1
      simp [is_on_screenF, hx, castI32, hlt]
    | ninf =>
      have hlt : ¬ ((0 : ℤ) < i32min) := by norm_num [i32min]
      simp [is_on_screenF, hx, castI32, hlt]
  · cases hy : v.y with
    | fin q => rw [hy] at h; simp [FV.isFinite] at h
    | nan => simp [is_on_screenF, hy, castI32]
    | pinf =>
      have hlt : ¬ (i32max < size.2) := not_lt.mpr h2
      simp [is_on_screenF, hy, castI32, hlt]
    | ninf =>
      have hlt : ¬ ((0 : ℤ) < i32min) := by norm_num [i32min]
      simp [is_on_screenF, hy, castI32, hlt]

/-- C8: the casts of the on-screen test saturate — NaN casts to 0, +∞ to
`i32::MAX`, -∞ to `i32::MIN` — and therefore a triangle any of whose
projected vertices has a non-finite x or y coordinate fails the strict
bounds test and is dropped before it can reach the triangle rasterizer
(the perspective divide in `transform` itself has no guard for `w = 0`). -/
theorem c8_nonfinite_dropped :
    castI32 FV.nan = 0 ∧ castI32 FV.pinf = i32max ∧ castI32 FV.ninf = i32min ∧
    ∀ (size : ℤ × ℤ) (t : FTriangle), size.1 ≤ i32max → size.2 ≤ i32max →
      (∃ v ∈ [t.a, t.b, t.c], v.x.isFinite = false ∨ v.y.isFinite = false) →
      is_on_screen_triangleF size t = false := by
  refine ⟨rfl, rfl, rfl, ?_⟩
  rintro size t h1 h2 ⟨v, hv, hnf⟩
  rw [Bool.eq_false_iff]
  intro hall
  rw [is_on_screen_triangleF, List.all_eq_true] at hall
  have := hall v hv
  rw [is_on_screenF_nonfinite size v h1 h2 hnf] at this
  exact Bool.false_ne_true this

/-- C8 witness: a concrete triangle whose first vertex has a NaN
x-coordinate fails the on-screen filter at screen size 10×10. -/
theorem c8_nonfinite_dropped_witness :
    is_on_screen_triangleF (10, 10) nanTri = false :=
  c8_nonfinite_dropped.2.2.2 (10, 10) nanTri (by norm_num [i32max])
    (by norm_num [i32max]) ⟨nanTri.a, List.mem_cons_self _ _, Or.inl rfl⟩

/-- C9: the on-screen filter tests truncated coordinates while the
rasterizer receives rounded ones: (a) every triangle passed to the
triangle primitive has each rounded vertex coordinate in
`[1, width] × [1, height]`; (b) a kept vertex coordinate can round to
exactly `width` (witness: coordinate 19/2 at width 10); (c) a vertex
coordinate in the open interval (0,1) makes the filter drop the triangle
even though it rounds to an on-screen pixel (witness: coordinate 1/2). -/
theorem c9_trunc_vs_round :
    (∀ (size : ℤ × ℤ) (t : Triangle), is_on_screen_triangle size t = true →
      ∀ v ∈ [t.a, t.b, t.c],
        1 ≤ roundQ v.x ∧ roundQ v.x ≤ size.1 ∧
        1 ≤ roundQ v.y ∧ roundQ v.y ≤ size.2)
    ∧ (is_on_screen_triangle (10, 10) sampleEdgeTri = true ∧
        roundQ sampleEdgeTri.a.x = 10)
    ∧ (is_on_screen_triangle (10, 10) sampleDropTri = false ∧
        (0 : ℚ) < sampleDropTri.a.x ∧ sampleDropTri.a.x < 1 ∧
        roundQ sampleDropTri.a.x = 1 ∧ 0 ≤ roundQ sampleDropTri.a.x ∧
        roundQ sampleDropTri.a.x < 10) := by
  refine ⟨?_, ⟨?_, ?_⟩, ⟨?_, ?_, ?_, ?_, ?_, ?_⟩⟩
  · intro size t ht v hv
    rw [is_on_screen_triangle, List.all_eq_true] at ht
    have hos := ht v hv
    simp only [is_on_screen, Vec3.as_ivec3, Bool.and_eq_true,
      decide_eq_true_eq] at hos
    obtain ⟨⟨⟨hx0, hy0⟩, hxw⟩, hyh⟩ := hos
    obtain ⟨hx1, hx2⟩ := truncQ_pos_bounds v.x size.1 hx0 hxw
    obtain ⟨hy1, hy2⟩ := truncQ_pos_bounds v.y size.2 hy0 hyh
    obtain ⟨hrx1, hrx2⟩ := roundQ_bounds v.x size.1 hx1 hx2
    obtain ⟨hry1, hry2⟩ := roundQ_bounds v.y size.2 hy1 hy2
    exact ⟨hrx1, hrx2, hry1, hry2⟩
  · simp only [is_on_screen_triangle, sampleEdgeTri, is_on_screen,
      Vec3.as_ivec3, truncQ, List.all_cons, List.all_nil]
    norm_num
  · norm_num [sampleEdgeTri, roundQ]
  · simp only [is_on_screen_triangle, sampleDropTri, is_on_screen,
      Vec3.as_ivec3, truncQ, List.all_cons, List.all_nil]
    norm_num
  · norm_num [sampleDropTri]
  · norm_num [sampleDropTri]
  · norm_num [sampleDropTri, roundQ]
  · norm_num [sampleDropTri, roundQ]
  · norm_num [sampleDropTri, roundQ]

/-- C9 witness: the first part applied to the concrete kept triangle whose
coordinates are all 19/2: its rounded coordinates are within [1, 10]. -/
theorem c9_trunc_vs_round_witness :
    1 ≤ roundQ sampleEdgeTri.a.x ∧ roundQ sampleEdgeTri.a.x ≤ 10 ∧
      1 ≤ roundQ sampleEdgeTri.a.y ∧ roundQ sampleEdgeTri.a.y ≤ 10 :=
  c9_trunc_vs_round.1 (10, 10) sampleEdgeTri
    (by
      simp only [is_on_screen_triangle, sampleEdgeTri, is_on_screen,
        Vec3.as_ivec3, truncQ, List.all_cons, List.all_nil]
      norm_num)
    sampleEdgeTri.a (List.mem_cons_self _ _)

lemma runCamera_aspect (sens : ℚ) (steps : List Step) :
    ∀ c : Camera, (runCamera sens c steps).aspect =
      match lastResize steps with
      | none => c.aspect
      | some wh => (wh.1 : ℚ) / (wh.2 : ℚ) := by
  induction steps with
  | nil => intro c; rfl
  | cons s rest ih =>
    intro c
    have hstep : runCamera sens c (s :: rest) =
        runCamera sens (stepCamera sens c s) rest := rfl
    rw [hstep, ih (stepCamera sens c s)]
    cases hr : lastResize rest with
    | some wh => simp [lastResize, hr]
    | none =>
      cases s with
      | ev e =>
        cases e with
        | resized w h => simp [lastResize, hr, stepCamera, handleEvent]
        | mouseMotion dx dy =>
          simp [lastResize, hr, stepCamera, handleEvent,
            Camera.update_rotation]
        | other => simp [lastResize, hr, stepCamera, handleEvent]
      | update mv => simp [lastResize, hr, stepCamera, Camera.update]
      | render => simp [lastResize, hr, stepCamera]

/-- C10: starting from the startup camera `Camera::new(0, 0, 0.0)` (aspect
ratio 0), after any interleaving of events, update calls and render calls
the aspect ratio is 0 if no resize event occurred, and otherwise
`width / height` of the most recent resize event; in particular every
frame rendered before the first resize sees a zero aspect ratio. -/
theorem c10_aspect_invariant (sens : ℚ) (steps : List Step) :
    (runCamera sens initialCamera steps).aspect =
      match lastResize steps with
      | none => 0
      | some wh => (wh.1 : ℚ) / (wh.2 : ℚ) := by
  rw [runCamera_aspect sens steps initialCamera]
  cases lastResize steps <;> rfl

end PixelRendering
